import Mathlib

/-!
Verification of the wso2-synapse-parser repository: a shallow embedding of
the event-stream parser in `src/lib.rs` and the AST plus canonical renderer
in `src/ast.rs`, followed by theorems settling the specification claims.

The parser consumes a linear stream of structural XML events (as produced
by the external `xml` crate tokenizer) through a single lookahead slot
(`Parser.current_event` in the Rust source).  Streams are modelled as
`List XmlEvent`; the fallible `Result` values are modelled as `Except`.
The `while` loops of the source are modelled with an explicit fuel
parameter; the top-level entry point supplies fuel strictly larger than
the number of events ever inspected, so the `outOfFuel` value is an
artifact of the encoding that is never reached on the runs reasoned about
below.
-/

namespace SynapseParser

/-! ### Structural events (the input boundary)

Mirrors the fields of `xml::reader::XmlEvent`, `xml::name::OwnedName` and
`xml::attribute::OwnedAttribute` that the parser inspects or compares.
`OwnedName.mkLocal` plays the role of `OwnedName::local`, which leaves the
namespace and prefix fields empty; full-structure equality on names is
what the Rust `==` comparisons in the loops use. -/

inductive XmlVersion
  | version10
  | version11
deriving DecidableEq

structure OwnedName where
  local_name : String
  nsUri : Option String
  pfx : Option String
deriving DecidableEq

def OwnedName.mkLocal (s : String) : OwnedName := ⟨s, none, none⟩

structure OwnedAttribute where
  name : OwnedName
  value : String
deriving DecidableEq

inductive XmlEvent
  | startDocument (version : XmlVersion) (encoding : String) (standalone : Option Bool)
  | endDocument
  | startElement (name : OwnedName) (attributes : List OwnedAttribute)
  | endElement (name : OwnedName)
deriving DecidableEq

/-! ### The AST (`src/ast.rs`) -/

structure PropertyMediator where
  name : String
  value : String
deriving DecidableEq

structure LogMediator where
  level : String
  properties : List PropertyMediator
deriving DecidableEq

inductive Mediators
  | Log (log_mediator : LogMediator)
  | Property (property_mediator : PropertyMediator)
deriving DecidableEq

structure InSequence where
  mediators : List Mediators
deriving DecidableEq

inductive Sequences
  | InSequence (in_sequence : InSequence)
deriving DecidableEq

inductive AstNode
  | Sequence (s : Sequences)
  | Mediator (m : Mediators)
deriving DecidableEq

structure Program where
  ast_nodes : List AstNode
deriving DecidableEq

/-! ### The canonical renderer (the `Display` impls of `src/ast.rs`) -/

def PropertyMediator.render (p : PropertyMediator) : String :=
  "<property name=\"" ++ p.name ++ "\" value=\"" ++ p.value ++ "\"/>"

def LogMediator.render (l : LogMediator) : String :=
  "<log level=\"" ++ l.level ++ "\">"
    ++ String.join (l.properties.map PropertyMediator.render)
    ++ "</log>"

def Mediators.render : Mediators → String
  | .Log log_mediator => log_mediator.render
  | .Property property_mediator => property_mediator.render

def InSequence.render (s : InSequence) : String :=
  "<inSequence>" ++ String.join (s.mediators.map Mediators.render) ++ "</inSequence>"

def Sequences.render : Sequences → String
  | .InSequence in_sequence => in_sequence.render

def AstNode.render : AstNode → String
  | .Sequence s => s.render
  | .Mediator m => m.render

def Program.render (p : Program) : String :=
  String.join (p.ast_nodes.map AstNode.render)

/-! ### Parser state and errors (`src/lib.rs`)

The Rust `Parser` owns an `EventReader` plus one lookahead slot.  With the
reader abstracted to the list of events it will still deliver, the state is
the lookahead slot and that list.  `advance` is
`self.current_event = self.event_reader.next().ok()`: at stream end the
slot becomes `none`.  Errors are `anyhow` string errors; `ParseError.msg`
is a `bail!` message, `ParseError.ctx` is a `.context(...)` wrapper. -/

structure ParserState where
  current_event : Option XmlEvent
  rest : List XmlEvent
deriving DecidableEq

def advance (s : ParserState) : ParserState := ⟨s.rest.head?, s.rest.tail⟩

/-- `Parser::new`: pull the first event into the lookahead slot. -/
def stateOf (events : List XmlEvent) : ParserState := ⟨events.head?, events.tail⟩

inductive ParseError
  | msg (text : String)
  | ctx (note : String) (inner : ParseError)
  | outOfFuel
deriving DecidableEq

/-- The body of the attribute loop of `parse_log_mediator` (lib.rs:127-131):
`if attr.name.local_name == "level" { log_level = attr.value.clone(); }`. -/
def level_scan_step (log_level : String) (attr : OwnedAttribute) : String :=
  if attr.name.local_name = "level" then attr.value else log_level

/-- The attribute loop of `parse_log_mediator` (lib.rs:127-131), starting
from `String::new()`. -/
def level_scan (attributes : List OwnedAttribute) : String :=
  attributes.foldl level_scan_step ""

/-- The body of the attribute loop of `parse_property` (lib.rs:176-183):
two independent `if`s updating the `name`/`value` pair. -/
def property_scan_step (acc : String × String) (attr : OwnedAttribute) : String × String :=
  let acc1 := if attr.name.local_name = "name" then (attr.value, acc.2) else acc
  if attr.name.local_name = "value" then (acc1.1, attr.value) else acc1

/-- The attribute loop of `parse_property` (lib.rs:176-183): one pass,
starting from two `String::new()` values. -/
def property_scan (attributes : List OwnedAttribute) : String × String :=
  attributes.foldl property_scan_step ("", "")

/-- `Parser::parse_property` (lib.rs:170-199): read `name`/`value` from the
start tag's attributes, advance one event, return the property node.  Any
other current event is `bail!("error")`. -/
def parse_property (s : ParserState) : Except ParseError (AstNode × ParserState) :=
  match s.current_event with
  | some (.startElement _ attributes) =>
      .ok (.Mediator (.Property
            ⟨(property_scan attributes).1, (property_scan attributes).2⟩),
          advance s)
  | _ => .error (.msg "error")

mutual

/-- `Parser::parse_mediator` (lib.rs:99-119): dispatch on the local name of
the current start (or, tolerated, end) tag. -/
def parse_mediator : Nat → ParserState → Except ParseError (AstNode × ParserState)
  | 0, _ => .error .outOfFuel
  | fuel + 1, s =>
    match s.current_event with
    | some (.startElement name _) =>
        if name.local_name = "log" then parse_log_mediator fuel s
        else if name.local_name = "property" then parse_property s
        else .error (.msg ("not a supported mediator: element " ++ name.local_name))
    | some (.endElement name) =>
        if name.local_name = "log" then parse_log_mediator fuel s
        else if name.local_name = "property" then parse_property s
        else .error (.msg ("not a supported mediator: element " ++ name.local_name))
    | _ => .error (.msg "not a supported mediator")

/-- `Parser::parse_log_mediator` (lib.rs:121-168): scan the start tag's
attributes for `level` (defaulting to the empty string), then loop over the
body.  The `bail!("not log level specified")` arm fires only when the
current event is not a start element at all. -/
def parse_log_mediator : Nat → ParserState → Except ParseError (AstNode × ParserState)
  | 0, _ => .error .outOfFuel
  | fuel + 1, s =>
    match s.current_event with
    | some (.startElement _ attributes) =>
        log_body_loop fuel (advance s) ⟨level_scan attributes, []⟩
    | _ => .error (.msg "not log level specified")

/-- The `while` loop of `parse_log_mediator` (lib.rs:148-165): until the
current event equals `EndElement { name: OwnedName::local("log") }`, parse
a mediator; only a property result is kept, anything else (including any
inner error) becomes `bail!("error parsing log mediator")`; after a
property, advance once more past its end element.  On loop exit, advance
past the close tag and return the log node. -/
def log_body_loop : Nat → ParserState → LogMediator → Except ParseError (AstNode × ParserState)
  | 0, _, _ => .error .outOfFuel
  | fuel + 1, s, log_mediator =>
    if s.current_event = some (.endElement (OwnedName.mkLocal "log")) then
      .ok (.Mediator (.Log log_mediator), advance s)
    else
      match parse_mediator fuel s with
      | .ok (.Mediator (.Property property), s1) =>
          log_body_loop fuel (advance s1)
            ⟨log_mediator.level, log_mediator.properties ++ [property]⟩
      | _ => .error (.msg "error parsing log mediator")

end

/-- The `while` loop of `parse_in_sequence` (lib.rs:73-87): until the
current event equals `EndElement { name: OwnedName::local("inSequence") }`,
parse a mediator (wrapping any error in the `"error parsing mediator"`
context) and push it.  The non-`Mediator` arm of the Rust `match` is
unreachable but kept. -/
def in_seq_loop : Nat → ParserState → List Mediators → Except ParseError (List Mediators × ParserState)
  | 0, _, _ => .error .outOfFuel
  | fuel + 1, s, mediators =>
    if s.current_event = some (.endElement (OwnedName.mkLocal "inSequence")) then
      .ok (mediators, s)
    else
      match parse_mediator fuel s with
      | .error e => .error (.ctx "error parsing mediator" e)
      | .ok (.Mediator m, s1) => in_seq_loop fuel s1 (mediators ++ [m])
      | .ok (_, _) => .error (.msg "error parsing mediator")

/-- `Parser::parse_in_sequence` (lib.rs:66-95): advance past the
`inSequence` start tag, run the body loop, advance past the close tag and
return the sequence node. -/
def parse_in_sequence (fuel : Nat) (s : ParserState) : Except ParseError (AstNode × ParserState) :=
  match in_seq_loop fuel (advance s) [] with
  | .ok (mediators, s1) =>
      .ok (.Sequence (.InSequence ⟨mediators⟩), advance s1)
  | .error e => .error e

/-- The `while` loop of `parse_progarm` (lib.rs:49-60): until the current
event equals `EndDocument`, a `StartElement` with local name `inSequence`
is parsed via `parse_in_sequence`; anything else is `bail!("error")`.
(The `println!` of the source is I/O noise with no bearing on the result.) -/
def program_loop : Nat → ParserState → List AstNode → Except ParseError (List AstNode)
  | 0, _, _ => .error .outOfFuel
  | fuel + 1, s, ast_nodes =>
    if s.current_event = some XmlEvent.endDocument then
      .ok ast_nodes
    else
      match s.current_event with
      | some (.startElement name _) =>
          if name.local_name = "inSequence" then
            match parse_in_sequence fuel s with
            | .ok (node, s1) => program_loop fuel s1 (ast_nodes ++ [node])
            | .error e => .error e
          else .error (.msg "error")
      | _ => .error (.msg "error")

/-- `Parser::parse_progarm` (lib.rs:34-62): skip the start-document marker
only when it is exactly `{ Version10, "UTF-8", standalone: None }`, then
run the top-level loop.  The fuel supplied is strictly larger than the
number of loop iterations and nested calls any run can make (each loop
iteration consumes at least one of the remaining events). -/
def parse_progarm (s0 : ParserState) : Except ParseError Program :=
  let s :=
    if s0.current_event
        = some (.startDocument .version10 "UTF-8" none)
    then advance s0 else s0
  match program_loop (s.rest.length + 8) s [] with
  | .ok ast_nodes => .ok ⟨ast_nodes⟩
  | .error e => .error e

/-- `Parser::new` followed by `parse_progarm` on an event stream. -/
def parse (events : List XmlEvent) : Except ParseError Program :=
  parse_progarm (stateOf events)

/-! ### The event stream of a rendered Program

The tokenizer is an external collaborator of this repository (the `xml`
crate), not code under `src/`. -/

/-- Modelled from the spec: the external tokenizer (spec sections 2 and 6,
"assumed correct and already whitespace-normalized") is not part of the
repository, so the event stream it produces for the canonical rendering of
a property node is modelled directly: the self-closing tag
`<property name="..." value="..."/>` yields an `ElementStart` carrying the
attributes in rendered order (`name`, then `value`) immediately followed
by its `ElementEnd`. -/
def PropertyMediator.events (p : PropertyMediator) : List XmlEvent :=
  [ .startElement (OwnedName.mkLocal "property")
      [⟨OwnedName.mkLocal "name", p.name⟩, ⟨OwnedName.mkLocal "value", p.value⟩],
    .endElement (OwnedName.mkLocal "property") ]

def propertiesEvents : List PropertyMediator → List XmlEvent
  | [] => []
  | p :: ps => p.events ++ propertiesEvents ps

/-- Modelled from the spec: tokenization of the rendered
`<log level="...">...</log>` — an `ElementStart` with the single `level`
attribute, the events of the rendered children in order, then the
`ElementEnd`. -/
def LogMediator.events (l : LogMediator) : List XmlEvent :=
  .startElement (OwnedName.mkLocal "log") [⟨OwnedName.mkLocal "level", l.level⟩]
    :: (propertiesEvents l.properties ++ [.endElement (OwnedName.mkLocal "log")])

def Mediators.events : Mediators → List XmlEvent
  | .Log log_mediator => log_mediator.events
  | .Property property_mediator => property_mediator.events

def mediatorsEvents : List Mediators → List XmlEvent
  | [] => []
  | m :: ms => m.events ++ mediatorsEvents ms

/-- Modelled from the spec: tokenization of the rendered
`<inSequence>...</inSequence>` — an attribute-less `ElementStart`, the
children's events in order, then the `ElementEnd`. -/
def InSequence.events (s : InSequence) : List XmlEvent :=
  .startElement (OwnedName.mkLocal "inSequence") []
    :: (mediatorsEvents s.mediators ++ [.endElement (OwnedName.mkLocal "inSequence")])

def Sequences.events : Sequences → List XmlEvent
  | .InSequence in_sequence => in_sequence.events

def AstNode.events : AstNode → List XmlEvent
  | .Sequence s => s.events
  | .Mediator m => m.events

def nodesEvents : List AstNode → List XmlEvent
  | [] => []
  | n :: ns => n.events ++ nodesEvents ns

/-- Modelled from the spec: the full event stream the external tokenizer
produces for `Program.render` — the nodes' events in document order
followed by the document-end marker (spec section 6; the optional
document-start marker is absent since the renderer emits no declaration). -/
def Program.events (p : Program) : List XmlEvent :=
  nodesEvents p.ast_nodes ++ [.endDocument]

/-! ### Shape predicates used by the claims -/

def Mediators.isLog : Mediators → Bool
  | .Log _ => true
  | .Property _ => false

def AstNode.isSequence : AstNode → Bool
  | .Sequence _ => true
  | .Mediator _ => false

/-- A top-level node that is an `InSequence` all of whose children are log
mediators: exactly the trees the grammar `parse_progarm` accepts can
produce from rendered text. -/
def AstNode.seqOfLogs : AstNode → Bool
  | .Sequence (.InSequence s) => s.mediators.all Mediators.isLog
  | .Mediator _ => false

def Program.roundTrippable (p : Program) : Bool :=
  p.ast_nodes.all AstNode.seqOfLogs

/-! ### Basic reduction facts about the cursor -/

theorem advance_cons (oe : Option XmlEvent) (x : XmlEvent) (l : List XmlEvent) :
    advance ⟨oe, x :: l⟩ = ⟨some x, l⟩ := rfl

theorem advance_nil (oe : Option XmlEvent) : advance ⟨oe, []⟩ = ⟨none, []⟩ := rfl

theorem stateOf_cons (x : XmlEvent) (l : List XmlEvent) :
    stateOf (x :: l) = ⟨some x, l⟩ := rfl

/-! ### Attribute-scan lemmas

Both attribute loops are left folds that overwrite an accumulator whenever
the attribute name matches a fixed key, so the value kept is the one of the
last matching attribute, and the initial empty string survives exactly when
no attribute matches. -/

theorem keyed_foldl_no_match (key : String) :
    ∀ (l : List OwnedAttribute) (i : String),
      (∀ a ∈ l, a.name.local_name ≠ key) →
      l.foldl (fun x attr => if attr.name.local_name = key then attr.value else x) i = i := by
  intro l
  induction l with
  | nil => intro i _; rfl
  | cons a l ih =>
      intro i h
      have ha : a.name.local_name ≠ key := h a (List.mem_cons_self a l)
      simp only [List.foldl_cons, if_neg ha]
      exact ih i fun b hb => h b (List.mem_cons_of_mem a hb)

theorem keyed_foldl_last (key : String) (pre post : List OwnedAttribute)
    (a : OwnedAttribute) (ha : a.name.local_name = key)
    (hpost : ∀ b ∈ post, b.name.local_name ≠ key) (i : String) :
    (pre ++ a :: post).foldl
      (fun x attr => if attr.name.local_name = key then attr.value else x) i = a.value := by
  rw [List.foldl_append, List.foldl_cons, if_pos ha]
  exact keyed_foldl_no_match key post a.value hpost

theorem level_scan_eq_keyed (l : List OwnedAttribute) :
    level_scan l = l.foldl
      (fun x attr => if attr.name.local_name = "level" then attr.value else x) "" := rfl

theorem property_scan_step_fst (acc : String × String) (attr : OwnedAttribute) :
    (property_scan_step acc attr).1 =
      if attr.name.local_name = "name" then attr.value else acc.1 := by
  by_cases h1 : attr.name.local_name = "name" <;>
    by_cases h2 : attr.name.local_name = "value" <;>
      simp [property_scan_step, h1, h2]

theorem property_scan_step_snd (acc : String × String) (attr : OwnedAttribute) :
    (property_scan_step acc attr).2 =
      if attr.name.local_name = "value" then attr.value else acc.2 := by
  by_cases h1 : attr.name.local_name = "name" <;>
    by_cases h2 : attr.name.local_name = "value" <;>
      simp [property_scan_step, h1, h2]

theorem property_foldl_fst :
    ∀ (l : List OwnedAttribute) (acc : String × String),
      (l.foldl property_scan_step acc).1 =
        l.foldl (fun x attr => if attr.name.local_name = "name" then attr.value else x) acc.1 := by
  intro l
  induction l with
  | nil => intro acc; rfl
  | cons a l ih =>
      intro acc
      rw [List.foldl_cons, List.foldl_cons, ih, property_scan_step_fst]

theorem property_foldl_snd :
    ∀ (l : List OwnedAttribute) (acc : String × String),
      (l.foldl property_scan_step acc).2 =
        l.foldl (fun x attr => if attr.name.local_name = "value" then attr.value else x) acc.2 := by
  intro l
  induction l with
  | nil => intro acc; rfl
  | cons a l ih =>
      intro acc
      rw [List.foldl_cons, List.foldl_cons, ih, property_scan_step_snd]

/-! ### Claim theorems -/

/-- Claim C1, counterexample: an event stream whose top-level content is
three consecutive `log` mediator elements (not wrapped in any `inSequence`)
does not parse into a three-node Program — the very first bare `log` start
tag makes `parse_progarm` bail with the generic top-level error. -/
theorem c1_counterexample :
    parse [.startElement (OwnedName.mkLocal "log") [⟨OwnedName.mkLocal "level", "a"⟩],
           .endElement (OwnedName.mkLocal "log"),
           .startElement (OwnedName.mkLocal "log") [⟨OwnedName.mkLocal "level", "b"⟩],
           .endElement (OwnedName.mkLocal "log"),
           .startElement (OwnedName.mkLocal "log") [⟨OwnedName.mkLocal "level", "c"⟩],
           .endElement (OwnedName.mkLocal "log"),
           .endDocument]
      = .error (.msg "error") := rfl

/-- Claim C1, amended: at the top level `parse` recognizes only `inSequence`
blocks; any event stream whose first event is a start tag of any other
element (in particular a bare supported mediator such as `log`) fails with
the generic top-level `"error"` instead of parsing the mediator. -/
theorem c1_amended (nm : OwnedName) (attrs : List OwnedAttribute) (rest : List XmlEvent)
    (h : nm.local_name ≠ "inSequence") :
    parse (.startElement nm attrs :: rest) = .error (.msg "error") := by
  simp only [parse, parse_progarm, stateOf]
  obtain ⟨f, hf⟩ : ∃ f, rest.length + 8 = f + 1 := ⟨rest.length + 7, by omega⟩
  simp [hf, program_loop, h]

/-- Claim C1, witness of the amended theorem at a concrete input. -/
theorem c1_amended_witness :
    parse [.startElement (OwnedName.mkLocal "log") []] = .error (.msg "error") :=
  c1_amended (OwnedName.mkLocal "log") [] [] (by decide)

/-- Claim C3: evaluation of the code at the failing input.  A `log` start
tag with no `level` attribute does not fail: `parse_log_mediator`'s
attribute scan leaves `log_level` as the initial empty string and the
parse succeeds, contradicting the specified `MalformedLog` failure (the
source's own `bail!("not log level specified")` message can never fire for
a start tag, only for a non-start-element event). -/
theorem c3_code_evaluation :
    parse [.startElement (OwnedName.mkLocal "inSequence") [],
           .startElement (OwnedName.mkLocal "log") [],
           .endElement (OwnedName.mkLocal "log"),
           .endElement (OwnedName.mkLocal "inSequence"),
           .endDocument]
      = .ok ⟨[.Sequence (.InSequence ⟨[.Log ⟨"", []⟩]⟩)]⟩ := rfl

/-- Claim C4, counterexample: a `log` start tag carrying two `level`
attributes (`"a"` first, `"b"` second) is parsed into a node keeping the
LAST matching attribute's value `"b"`, not the first (`"a"`) — the linear
scan keeps overwriting the accumulator. -/
theorem c4_counterexample :
    parse [.startElement (OwnedName.mkLocal "inSequence") [],
           .startElement (OwnedName.mkLocal "log")
             [⟨OwnedName.mkLocal "level", "a"⟩, ⟨OwnedName.mkLocal "level", "b"⟩],
           .endElement (OwnedName.mkLocal "log"),
           .endElement (OwnedName.mkLocal "inSequence"),
           .endDocument]
      = .ok ⟨[.Sequence (.InSequence ⟨[.Log ⟨"b", []⟩]⟩)]⟩
    ∧ (Program.mk [.Sequence (.InSequence ⟨[.Log ⟨"b", []⟩]⟩)])
        ≠ ⟨[.Sequence (.InSequence ⟨[.Log ⟨"a", []⟩]⟩)]⟩ :=
  ⟨rfl, by decide⟩

/-- Claim C4, amended: attribute extraction is a linear scan in which the
LAST matching attribute wins — whenever a recognized-name attribute `a` is
followed only by non-matching attributes, the kept value is `a.value`,
regardless of earlier matches; this holds for the `level` scan of
`parse_log_mediator` and for both components of the `name`/`value` scan of
`parse_property`. -/
theorem c4_amended :
    (∀ (pre post : List OwnedAttribute) (a : OwnedAttribute),
        a.name.local_name = "level" → (∀ b ∈ post, b.name.local_name ≠ "level") →
        level_scan (pre ++ a :: post) = a.value)
    ∧ (∀ (pre post : List OwnedAttribute) (a : OwnedAttribute),
        a.name.local_name = "name" → (∀ b ∈ post, b.name.local_name ≠ "name") →
        (property_scan (pre ++ a :: post)).1 = a.value)
    ∧ (∀ (pre post : List OwnedAttribute) (a : OwnedAttribute),
        a.name.local_name = "value" → (∀ b ∈ post, b.name.local_name ≠ "value") →
        (property_scan (pre ++ a :: post)).2 = a.value) := by
  refine ⟨?_, ?_, ?_⟩
  · intro pre post a ha hpost
    rw [level_scan_eq_keyed]
    exact keyed_foldl_last "level" pre post a ha hpost ""
  · intro pre post a ha hpost
    rw [property_scan, property_foldl_fst]
    exact keyed_foldl_last "name" pre post a ha hpost _
  · intro pre post a ha hpost
    rw [property_scan, property_foldl_snd]
    exact keyed_foldl_last "value" pre post a ha hpost _

/-- Claim C4, witness of the amended theorem at a concrete input: with two
`level` attributes the scan keeps the second value. -/
theorem c4_amended_witness :
    level_scan [⟨OwnedName.mkLocal "level", "a"⟩, ⟨OwnedName.mkLocal "level", "b"⟩] = "b" :=
  c4_amended.1 [⟨OwnedName.mkLocal "level", "a"⟩] [] ⟨OwnedName.mkLocal "level", "b"⟩ rfl
    (by intro b hb; exact absurd hb (List.not_mem_nil b))

/-- Claim C5, counterexample: a childless property node does NOT render as
an open/close tag pair with nothing between; it renders as a single
self-closing tag. -/
theorem c5_counterexample :
    PropertyMediator.render ⟨"n", "v"⟩ = "<property name=\"n\" value=\"v\"/>"
    ∧ PropertyMediator.render ⟨"n", "v"⟩ ≠ "<property name=\"n\" value=\"v\"></property>" :=
  ⟨rfl, by decide⟩

/-- Claim C5, amended: `inSequence` and `log` nodes render as an open tag
with their attributes, their children, then a matching close tag — with no
children the open tag is followed directly by the close tag — while a
property node always renders as a single self-closing
`<property name="..." value="..."/>` tag. -/
theorem c5_amended (lvl n v : String) (ms : List Mediators) :
    InSequence.render ⟨ms⟩
        = "<inSequence>" ++ String.join (ms.map Mediators.render) ++ "</inSequence>"
    ∧ InSequence.render ⟨[]⟩ = "<inSequence>" ++ "</inSequence>"
    ∧ LogMediator.render ⟨lvl, []⟩ = ("<log level=\"" ++ lvl ++ "\">") ++ "</log>"
    ∧ PropertyMediator.render ⟨n, v⟩
        = "<property name=\"" ++ n ++ "\" value=\"" ++ v ++ "\"/>" := by
  refine ⟨rfl, rfl, ?_, rfl⟩
  simp [LogMediator.render, String.join, String.append_empty]

/-- Claim C5, witness of the amended theorem at a concrete childless log
node. -/
theorem c5_amended_witness :
    LogMediator.render ⟨"full", []⟩ = ("<log level=\"" ++ "full" ++ "\">") ++ "</log>" :=
  (c5_amended "full" "n" "v" []).2.2.1

/-- Claim C8: for every `property` start tag the recognizer succeeds,
returning the scanned `name`/`value` pair and advancing one event; when no
attribute named `name` (resp. `value`) is present, the corresponding
component defaults to the empty string rather than failing. -/
theorem c8_property_defaults (nm : OwnedName) (attrs : List OwnedAttribute)
    (rest : List XmlEvent) :
    parse_property ⟨some (.startElement nm attrs), rest⟩
      = .ok (.Mediator (.Property ⟨(property_scan attrs).1, (property_scan attrs).2⟩),
             ⟨rest.head?, rest.tail⟩)
    ∧ ((∀ a ∈ attrs, a.name.local_name ≠ "name") → (property_scan attrs).1 = "")
    ∧ ((∀ a ∈ attrs, a.name.local_name ≠ "value") → (property_scan attrs).2 = "") := by
  refine ⟨rfl, ?_, ?_⟩
  · intro h
    rw [property_scan, property_foldl_fst]
    exact keyed_foldl_no_match "name" attrs _ h
  · intro h
    rw [property_scan, property_foldl_snd]
    exact keyed_foldl_no_match "value" attrs _ h

/-- Claim C8, witness: a `property` start tag with no attributes at all
parses successfully into a node with empty name and value. -/
theorem c8_witness :
    parse_property ⟨some (.startElement (OwnedName.mkLocal "property") []), []⟩
      = .ok (.Mediator (.Property ⟨"", ""⟩), ⟨none, []⟩)
    ∧ (property_scan ([] : List OwnedAttribute)).1 = ""
    ∧ (property_scan ([] : List OwnedAttribute)).2 = "" := by
  obtain ⟨h1, h2, h3⟩ :=
    c8_property_defaults (OwnedName.mkLocal "property") [] []
  exact ⟨h1, h2 (by intro a ha; exact absurd ha (List.not_mem_nil a)),
         h3 (by intro a ha; exact absurd ha (List.not_mem_nil a))⟩

/-- Claim C10: the optional leading document-start marker is skipped only
when it is exactly XML version 1.0 with encoding string `"UTF-8"` and no
standalone declaration.  Any other document-start marker is not skipped and
the top-level dispatch immediately fails with the generic `"error"`; the
exact marker is skipped and parsing proceeds to content. -/
theorem c10_document_start (v : XmlVersion) (enc : String) (st : Option Bool)
    (rest : List XmlEvent)
    (h : ¬(v = XmlVersion.version10 ∧ enc = "UTF-8" ∧ st = none)) :
    parse (.startDocument v enc st :: rest) = .error (.msg "error")
    ∧ parse [.startDocument .version10 "UTF-8" none,
             .startElement (OwnedName.mkLocal "inSequence") [],
             .endElement (OwnedName.mkLocal "inSequence"),
             .endDocument]
        = .ok ⟨[.Sequence (.InSequence ⟨[]⟩)]⟩ := by
  constructor
  · have hskip : ¬(some (XmlEvent.startDocument v enc st)
        = some (XmlEvent.startDocument .version10 "UTF-8" none)) := by
      simp only [Option.some.injEq, XmlEvent.startDocument.injEq]
      exact fun hx => h hx
    simp only [parse, parse_progarm, stateOf]
    obtain ⟨f, hf⟩ : ∃ f, rest.length + 8 = f + 1 := ⟨rest.length + 7, by omega⟩
    simp [hskip, hf, program_loop]
  · rfl

/-- Claim C10, witness: a marker with version 1.1 is not skipped and the
parse fails; the exact 1.0/UTF-8/no-standalone marker is skipped. -/
theorem c10_witness :
    parse [.startDocument .version11 "UTF-8" none] = .error (.msg "error")
    ∧ parse [.startDocument .version10 "UTF-8" none,
             .startElement (OwnedName.mkLocal "inSequence") [],
             .endElement (OwnedName.mkLocal "inSequence"),
             .endDocument]
        = .ok ⟨[.Sequence (.InSequence ⟨[]⟩)]⟩ :=
  c10_document_start .version11 "UTF-8" none [] (by simp)

/-! ### Failure traces inside open elements (claims C6 and C7) -/

theorem mkLocal_local_name (s : String) : (OwnedName.mkLocal s).local_name = s := rfl

/-- Inside a `log` body, a close tag of any other element is fed to the
mediator dispatcher; whatever the dispatcher answers is replaced by the
generic `"error parsing log mediator"` failure. -/
theorem log_body_loop_stray_close (fuel : Nat) (lm : LogMediator) (nm : OwnedName)
    (rest : List XmlEvent) (h : 2 ≤ fuel)
    (h1 : nm ≠ OwnedName.mkLocal "log") (h2 : nm.local_name ≠ "log")
    (h3 : nm.local_name ≠ "property") :
    log_body_loop fuel ⟨some (.endElement nm), rest⟩ lm
      = .error (.msg "error parsing log mediator") := by
  obtain ⟨f, rfl⟩ : ∃ f, fuel = f + 1 := ⟨fuel - 1, by omega⟩
  obtain ⟨g, rfl⟩ : ∃ g, f = g + 1 := ⟨f - 1, by omega⟩
  simp [log_body_loop, parse_mediator, h1, h2, h3]

/-- Inside a `log` body, end of stream is fed to the mediator dispatcher
and likewise replaced by the generic `"error parsing log mediator"`. -/
theorem log_body_loop_none (fuel : Nat) (lm : LogMediator) (rest : List XmlEvent)
    (h : 2 ≤ fuel) :
    log_body_loop fuel ⟨none, rest⟩ lm
      = .error (.msg "error parsing log mediator") := by
  obtain ⟨f, rfl⟩ : ∃ f, fuel = f + 1 := ⟨fuel - 1, by omega⟩
  obtain ⟨g, rfl⟩ : ∃ g, f = g + 1 := ⟨f - 1, by omega⟩
  simp [log_body_loop, parse_mediator]

/-- The mismatched-close scenario of claim C6 at the sequence-loop level:
after an unclosed `<log ...>` the `</inSequence>` close tag is consumed by
the log body, producing the log-body failure wrapped in the mediator
context. -/
theorem in_seq_loop_unclosed_log (fuel : Nat) (a2 : List OwnedAttribute)
    (rest : List XmlEvent) (acc : List Mediators) (h : 5 ≤ fuel) :
    in_seq_loop fuel ⟨some (.startElement (OwnedName.mkLocal "log") a2),
                      .endElement (OwnedName.mkLocal "inSequence") :: rest⟩ acc
      = .error (.ctx "error parsing mediator" (.msg "error parsing log mediator")) := by
  obtain ⟨f, rfl⟩ : ∃ f, fuel = f + 1 := ⟨fuel - 1, by omega⟩
  obtain ⟨g, rfl⟩ : ∃ g, f = g + 1 := ⟨f - 1, by omega⟩
  obtain ⟨i, rfl⟩ : ∃ i, g = i + 1 := ⟨g - 1, by omega⟩
  simp [in_seq_loop, parse_mediator, parse_log_mediator, advance, mkLocal_local_name,
        log_body_loop_stray_close i ⟨level_scan a2, []⟩ (OwnedName.mkLocal "inSequence") rest
          (by omega) (by decide) (by decide) (by decide)]

/-- A close tag of an unsupported element directly inside `inSequence` is
fed to the mediator dispatcher, whose error gets the mediator context. -/
theorem in_seq_loop_stray_close (fuel : Nat) (nm : OwnedName) (rest : List XmlEvent)
    (acc : List Mediators) (h : 2 ≤ fuel)
    (h1 : nm.local_name ≠ "log") (h2 : nm.local_name ≠ "property")
    (h3 : nm.local_name ≠ "inSequence") :
    in_seq_loop fuel ⟨some (.endElement nm), rest⟩ acc
      = .error (.ctx "error parsing mediator"
          (.msg ("not a supported mediator: element " ++ nm.local_name))) := by
  obtain ⟨f, rfl⟩ : ∃ f, fuel = f + 1 := ⟨fuel - 1, by omega⟩
  obtain ⟨g, rfl⟩ : ∃ g, f = g + 1 := ⟨f - 1, by omega⟩
  have hne : nm ≠ OwnedName.mkLocal "inSequence" := by
    intro hx
    exact h3 (by rw [hx]; rfl)
  simp [in_seq_loop, parse_mediator, h1, h2, hne]

/-- The scenario of claim C7 at the sequence-loop level: a property element
(start tag immediately followed by its end tag) as a direct child of
`inSequence` parses as a property node, but the leftover property end tag
then reaches `parse_property` with a non-start-element current event, which
bails with `"error"` inside the mediator context. -/
theorem in_seq_loop_property_child (fuel : Nat) (attrs : List OwnedAttribute)
    (rest : List XmlEvent) (acc : List Mediators) (h : 3 ≤ fuel) :
    in_seq_loop fuel ⟨some (.startElement (OwnedName.mkLocal "property") attrs),
                      .endElement (OwnedName.mkLocal "property") :: rest⟩ acc
      = .error (.ctx "error parsing mediator" (.msg "error")) := by
  obtain ⟨f, rfl⟩ : ∃ f, fuel = f + 1 := ⟨fuel - 1, by omega⟩
  obtain ⟨g, rfl⟩ : ∃ g, f = g + 1 := ⟨f - 1, by omega⟩
  obtain ⟨i, rfl⟩ : ∃ i, g = i + 1 := ⟨g - 1, by omega⟩
  simp [in_seq_loop, parse_mediator, parse_property, advance, OwnedName.mkLocal]

/-- Claim C6, counterexample: parsing
`<inSequence><log level="x"></inSequence>` does fail, but the error is the
generic log-body failure wrapped in the mediator context (the stray close
tag is fed to the mediator dispatcher and the dispatcher's answer is
swallowed by the log body); the code has no distinct unbalanced-element
error kind at all. -/
theorem c6_counterexample :
    parse [.startElement (OwnedName.mkLocal "inSequence") [],
           .startElement (OwnedName.mkLocal "log") [⟨OwnedName.mkLocal "level", "x"⟩],
           .endElement (OwnedName.mkLocal "inSequence"),
           .endDocument]
      = .error (.ctx "error parsing mediator" (.msg "error parsing log mediator")) := rfl

/-- Claim C6, amended: recognizing an `inSequence` does fail (never
silently closes) when the stream ends or a differently-named close tag
appears before the matching close tag — but not with a distinct
`UnbalancedElement` error: the offending close tag or stream end is handed
to the mediator dispatcher, so inside an open `log` body the failure is
`"error parsing log mediator"`, and directly inside the sequence it is the
dispatcher's own `"not a supported mediator"` error, each wrapped in the
`"error parsing mediator"` context. -/
theorem c6_amended :
    (∀ (a1 a2 : List OwnedAttribute) (rest : List XmlEvent),
        parse (.startElement (OwnedName.mkLocal "inSequence") a1
              :: .startElement (OwnedName.mkLocal "log") a2
              :: .endElement (OwnedName.mkLocal "inSequence") :: rest)
          = .error (.ctx "error parsing mediator" (.msg "error parsing log mediator")))
    ∧ (∀ (a1 a2 : List OwnedAttribute),
        parse [.startElement (OwnedName.mkLocal "inSequence") a1,
               .startElement (OwnedName.mkLocal "log") a2]
          = .error (.ctx "error parsing mediator" (.msg "error parsing log mediator")))
    ∧ (∀ (a1 : List OwnedAttribute),
        parse [.startElement (OwnedName.mkLocal "inSequence") a1]
          = .error (.ctx "error parsing mediator" (.msg "not a supported mediator")))
    ∧ (∀ (nm : OwnedName) (a1 : List OwnedAttribute) (rest : List XmlEvent),
        nm.local_name ≠ "log" → nm.local_name ≠ "property" → nm.local_name ≠ "inSequence" →
        parse (.startElement (OwnedName.mkLocal "inSequence") a1
              :: .endElement nm :: rest)
          = .error (.ctx "error parsing mediator"
              (.msg ("not a supported mediator: element " ++ nm.local_name)))) := by
  refine ⟨?_, ?_, ?_, ?_⟩
  · intro a1 a2 rest
    simp [parse, parse_progarm, stateOf, program_loop, parse_in_sequence, advance,
          mkLocal_local_name,
          in_seq_loop_unclosed_log (rest.length + 1 + 1 + 7) a2 rest [] (by omega)]
  · intro a1 a2
    rfl
  · intro a1
    rfl
  · intro nm a1 rest h1 h2 h3
    simp [parse, parse_progarm, stateOf, program_loop, parse_in_sequence, advance,
          mkLocal_local_name,
          in_seq_loop_stray_close (rest.length + 1 + 7) nm rest [] (by omega) h1 h2 h3]

/-- Claim C6, witness of the amended theorem at concrete inputs. -/
theorem c6_amended_witness :
    parse [.startElement (OwnedName.mkLocal "inSequence") [],
           .endElement (OwnedName.mkLocal "class")]
      = .error (.ctx "error parsing mediator"
          (.msg ("not a supported mediator: element " ++ "class"))) :=
  c6_amended.2.2.2 (OwnedName.mkLocal "class") [] [] (by decide) (by decide) (by decide)

/-- Claim C7: a property element (start tag followed by its matching end
tag) appearing as a direct child of `inSequence` makes the parse fail —
whenever the sequence loop meets such a pair (first conjunct, any position
and any accumulated mediators), and hence for whole streams where the pair
is the first sequence child (second conjunct). -/
theorem c7_property_in_sequence_rejected :
    (∀ (fuel : Nat) (attrs : List OwnedAttribute) (rest : List XmlEvent)
        (acc : List Mediators), 3 ≤ fuel →
        in_seq_loop fuel ⟨some (.startElement (OwnedName.mkLocal "property") attrs),
                          .endElement (OwnedName.mkLocal "property") :: rest⟩ acc
          = .error (.ctx "error parsing mediator" (.msg "error")))
    ∧ (∀ (a1 attrs : List OwnedAttribute) (rest : List XmlEvent),
        parse (.startElement (OwnedName.mkLocal "inSequence") a1
              :: .startElement (OwnedName.mkLocal "property") attrs
              :: .endElement (OwnedName.mkLocal "property") :: rest)
          = .error (.ctx "error parsing mediator" (.msg "error"))) := by
  constructor
  · intro fuel attrs rest acc h
    exact in_seq_loop_property_child fuel attrs rest acc h
  · intro a1 attrs rest
    simp [parse, parse_progarm, stateOf, program_loop, parse_in_sequence, advance,
          mkLocal_local_name,
          in_seq_loop_property_child (rest.length + 1 + 1 + 7) attrs rest [] (by omega)]

/-- Claim C7, witness at a concrete input. -/
theorem c7_witness :
    in_seq_loop 3 ⟨some (.startElement (OwnedName.mkLocal "property") []),
                   [.endElement (OwnedName.mkLocal "property")]⟩ []
      = .error (.ctx "error parsing mediator" (.msg "error")) :=
  c7_property_in_sequence_rejected.1 3 [] [] [] (by omega)

/-! ### Top-level shape invariant (claim C9) -/

/-- Every success of `parse_in_sequence` is a `Sequence` node. -/
theorem parse_in_sequence_isSequence (fuel : Nat) (s : ParserState)
    (node : AstNode) (s1 : ParserState)
    (h : parse_in_sequence fuel s = .ok (node, s1)) : node.isSequence = true := by
  rw [parse_in_sequence] at h
  cases hm : in_seq_loop fuel (advance s) [] with
  | ok r =>
      obtain ⟨ms, st⟩ := r
      rw [hm] at h
      simp only [Except.ok.injEq, Prod.mk.injEq] at h
      rw [← h.1]
      rfl
  | error e =>
      rw [hm] at h
      simp at h

/-- The top-level loop only ever appends results of `parse_in_sequence`,
so a successful run starting from an all-`Sequence` accumulator yields an
all-`Sequence` node list. -/
theorem program_loop_all_seq :
    ∀ (fuel : Nat) (s : ParserState) (acc nodes : List AstNode),
      program_loop fuel s acc = .ok nodes → acc.all AstNode.isSequence = true →
      nodes.all AstNode.isSequence = true := by
  intro fuel
  induction fuel with
  | zero =>
      intro s acc nodes h _
      rw [program_loop] at h
      simp at h
  | succ f ih =>
      intro s acc nodes h hacc
      rw [program_loop] at h
      split at h
      · simp only [Except.ok.injEq] at h
        subst h
        exact hacc
      · split at h
        · split at h
          · split at h
            · rename_i node s1 hp
              have hnode := parse_in_sequence_isSequence f s node s1 hp
              refine ih s1 (acc ++ [node]) nodes h ?_
              simp [List.all_append, hacc, hnode]
            · simp at h
          · simp at h
        · simp at h

/-- Claim C9: in every Program returned by a successful `parse`, every
top-level node is a `Sequence` (`InSequence`) node; a bare `Mediator` node
never appears at the top level of a successfully parsed Program. -/
theorem c9_top_level_all_sequences (events : List XmlEvent) (p : Program)
    (h : parse events = .ok p) :
    p.ast_nodes.all AstNode.isSequence = true := by
  simp only [parse, parse_progarm] at h
  generalize hS :
      (if (stateOf events).current_event
            = some (XmlEvent.startDocument .version10 "UTF-8" none)
        then advance (stateOf events) else stateOf events) = s1 at h
  cases hm : program_loop (s1.rest.length + 8) s1 [] with
  | ok ns =>
      rw [hm] at h
      simp only [Except.ok.injEq] at h
      rw [← h]
      exact program_loop_all_seq (s1.rest.length + 8) s1 [] ns hm rfl
  | error e =>
      rw [hm] at h
      simp at h

/-- Claim C9, witness: a concrete successful parse, whose single top-level
node is indeed a Sequence node. -/
theorem c9_witness :
    (Program.mk [.Sequence (.InSequence ⟨[]⟩)]).ast_nodes.all AstNode.isSequence = true :=
  c9_top_level_all_sequences
    [.startElement (OwnedName.mkLocal "inSequence") [],
     .endElement (OwnedName.mkLocal "inSequence"), .endDocument]
    ⟨[.Sequence (.InSequence ⟨[]⟩)]⟩ rfl

/-! ### The round-trip law (claim C2)

The lemmas below run the parser over the modelled event stream of a
rendered Program whose shape the grammar can reproduce: all top-level
nodes are `InSequence` and all sequence children are `log` mediators. -/

theorem propertiesEvents_length (ps : List PropertyMediator) :
    (propertiesEvents ps).length = 2 * ps.length := by
  induction ps with
  | nil => rfl
  | cons p ps ih =>
      simp [propertiesEvents, PropertyMediator.events, List.length_append, ih]
      omega

/-- Parsing one rendered property element consumes its start tag and leaves
the lookahead on its end tag. -/
theorem parse_property_events (p : PropertyMediator) (rest : List XmlEvent) :
    parse_property ⟨some (.startElement (OwnedName.mkLocal "property")
        [⟨OwnedName.mkLocal "name", p.name⟩, ⟨OwnedName.mkLocal "value", p.value⟩]),
      .endElement (OwnedName.mkLocal "property") :: rest⟩
      = .ok (.Mediator (.Property p),
             ⟨some (.endElement (OwnedName.mkLocal "property")), rest⟩) := by
  cases p
  rfl

/-- The log body loop consumes the rendered property children in order,
appends them to the accumulator, and steps past the `</log>` close tag. -/
theorem log_body_loop_events :
    ∀ (ps : List PropertyMediator) (rest : List XmlEvent) (lm : LogMediator) (fuel : Nat),
      ps.length + 1 ≤ fuel →
      log_body_loop fuel
          (stateOf (propertiesEvents ps ++ (.endElement (OwnedName.mkLocal "log") :: rest))) lm
        = .ok (.Mediator (.Log ⟨lm.level, lm.properties ++ ps⟩), stateOf rest) := by
  intro ps
  induction ps with
  | nil =>
      intro rest lm fuel h
      obtain ⟨f, rfl⟩ : ∃ f, fuel = f + 1 := ⟨fuel - 1, by omega⟩
      simp [propertiesEvents, stateOf, log_body_loop, advance]
  | cons p ps ih =>
      intro rest lm fuel h
      simp only [List.length_cons] at h
      obtain ⟨f, rfl⟩ : ∃ f, fuel = f + 1 := ⟨fuel - 1, by omega⟩
      obtain ⟨g, rfl⟩ : ∃ g, f = g + 1 := ⟨f - 1, by omega⟩
      have hp := parse_property_events p
        (propertiesEvents ps ++ (.endElement (OwnedName.mkLocal "log") :: rest))
      have ihx := ih rest ⟨lm.level, lm.properties ++ [p]⟩ (g + 1) (by omega)
      rw [stateOf] at ihx
      rw [log_body_loop]
      simp [propertiesEvents, PropertyMediator.events, stateOf, parse_mediator,
            mkLocal_local_name, advance, hp, ihx, -List.head?_append]

/-- The sequence loop consumes the rendered log mediators in order and
stops on the `</inSequence>` close tag. -/
theorem in_seq_loop_events :
    ∀ (ms : List Mediators) (rest : List XmlEvent) (acc : List Mediators) (fuel : Nat),
      ms.all Mediators.isLog = true →
      (mediatorsEvents ms).length + 2 ≤ fuel →
      in_seq_loop fuel
          (stateOf (mediatorsEvents ms
            ++ (.endElement (OwnedName.mkLocal "inSequence") :: rest))) acc
        = .ok (acc ++ ms, ⟨some (.endElement (OwnedName.mkLocal "inSequence")), rest⟩) := by
  intro ms
  induction ms with
  | nil =>
      intro rest acc fuel _ h
      obtain ⟨f, rfl⟩ : ∃ f, fuel = f + 1 := ⟨fuel - 1, by omega⟩
      rw [in_seq_loop]
      simp [mediatorsEvents, stateOf]
  | cons m ms ih =>
      intro rest acc fuel hall h
      cases m with
      | Property pr => simp [List.all_cons, Mediators.isLog] at hall
      | Log l =>
          simp only [List.all_cons, Mediators.isLog, Bool.true_and] at hall
          have hlen : (mediatorsEvents (Mediators.Log l :: ms)).length
              = 2 * l.properties.length + 2 + (mediatorsEvents ms).length := by
            simp [mediatorsEvents, Mediators.events, LogMediator.events,
                  List.length_append, propertiesEvents_length]
            omega
          rw [hlen] at h
          obtain ⟨f, rfl⟩ : ∃ f, fuel = f + 1 := ⟨fuel - 1, by omega⟩
          obtain ⟨g, rfl⟩ : ∃ g, f = g + 1 := ⟨f - 1, by omega⟩
          obtain ⟨i, rfl⟩ : ∃ i, g = i + 1 := ⟨g - 1, by omega⟩
          have hbody := log_body_loop_events l.properties
            (mediatorsEvents ms ++ (.endElement (OwnedName.mkLocal "inSequence") :: rest))
            ⟨l.level, []⟩ i (by omega)
          rw [stateOf] at hbody
          have ihx := ih rest (acc ++ [Mediators.Log l]) ((i + 1) + 1) hall (by omega)
          rw [stateOf] at ihx
          rw [in_seq_loop]
          simp [mediatorsEvents, Mediators.events, LogMediator.events, stateOf,
                parse_mediator, parse_log_mediator, level_scan, level_scan_step,
                mkLocal_local_name, advance, hbody, ihx, -List.head?_append]

/-- The top-level loop consumes the rendered sequences in order and stops
on the document-end marker. -/
theorem program_loop_events :
    ∀ (ns : List AstNode) (rest : List XmlEvent) (acc : List AstNode) (fuel : Nat),
      ns.all AstNode.seqOfLogs = true →
      (nodesEvents ns).length + 2 ≤ fuel →
      program_loop fuel (stateOf (nodesEvents ns ++ (XmlEvent.endDocument :: rest))) acc
        = .ok (acc ++ ns) := by
  intro ns
  induction ns with
  | nil =>
      intro rest acc fuel _ h
      obtain ⟨f, rfl⟩ : ∃ f, fuel = f + 1 := ⟨fuel - 1, by omega⟩
      rw [program_loop]
      simp [nodesEvents, stateOf]
  | cons n ns ih =>
      intro rest acc fuel hall h
      cases n with
      | Mediator m => simp [List.all_cons, AstNode.seqOfLogs] at hall
      | Sequence sq =>
          cases sq with
          | InSequence iseq =>
              simp only [List.all_cons, AstNode.seqOfLogs, Bool.and_eq_true] at hall
              obtain ⟨hseq, hrest⟩ := hall
              have hlen : (nodesEvents (AstNode.Sequence (.InSequence iseq) :: ns)).length
                  = (mediatorsEvents iseq.mediators).length + 2 + (nodesEvents ns).length := by
                simp [nodesEvents, AstNode.events, Sequences.events, InSequence.events,
                      List.length_append]
                omega
              rw [hlen] at h
              obtain ⟨f, rfl⟩ : ∃ f, fuel = f + 1 := ⟨fuel - 1, by omega⟩
              have hseqloop := in_seq_loop_events iseq.mediators
                (nodesEvents ns ++ (XmlEvent.endDocument :: rest)) [] f hseq (by omega)
              rw [stateOf] at hseqloop
              have ihx := ih rest (acc ++ [AstNode.Sequence (.InSequence iseq)]) f hrest
                (by omega)
              rw [stateOf] at ihx
              rw [program_loop]
              simp [nodesEvents, AstNode.events, Sequences.events, InSequence.events,
                    stateOf, parse_in_sequence, mkLocal_local_name, advance,
                    hseqloop, ihx, -List.head?_append]

/-- Claim C2, counterexample: the round-trip law fails as stated.  The
Program consisting of one bare top-level Mediator node (a log with literal
level `"a"`, no markup-special characters anywhere) renders to
`<log level="a"></log>`, whose event stream the parser rejects at the
top-level dispatch, so `parse (render p)` is an error, not `p`. -/
theorem c2_counterexample :
    parse (Program.events ⟨[.Mediator (.Log ⟨"a", []⟩)]⟩) = .error (.msg "error") := rfl

/-- Claim C2, amended: the round-trip law `parse (render p) = p` holds for
every Program of the shape the parser itself can produce from rendered
text — all top-level nodes are `InSequence` nodes and every sequence child
is a log mediator (properties only inside logs) — with attribute values
taken literally (no markup-special characters), the rendering being
tokenized by the spec-modelled external tokenizer (`Program.events`). -/
theorem c2_amended (p : Program) (h : p.roundTrippable = true) :
    parse (Program.events p) = .ok p := by
  obtain ⟨ns⟩ := p
  simp only [Program.roundTrippable] at h
  have hloop := program_loop_events ns [] []
    ((nodesEvents ns ++ [XmlEvent.endDocument]).tail.length + 8) h
    (by simp [List.length_tail, List.length_append]; try omega)
  rw [stateOf] at hloop
  have hhead : ¬((nodesEvents ns ++ [XmlEvent.endDocument]).head?
      = some (.startDocument .version10 "UTF-8" none)) := by
    cases ns with
    | nil => simp [nodesEvents]
    | cons n ns =>
        cases n with
        | Sequence sq =>
            cases sq with
            | InSequence iseq =>
                simp [nodesEvents, AstNode.events, Sequences.events, InSequence.events]
        | Mediator m =>
            cases m with
            | Log l => simp [nodesEvents, AstNode.events, Mediators.events,
                             LogMediator.events]
            | Property pr => simp [nodesEvents, AstNode.events, Mediators.events,
                                   PropertyMediator.events]
  simp only [parse, parse_progarm, stateOf, Program.events]
  rw [if_neg hhead]
  rw [hloop]
  simp

/-- Claim C2, witness of the amended round-trip theorem at a concrete
Program (one sequence holding one log with one property child). -/
theorem c2_amended_witness :
    parse (Program.events
        ⟨[.Sequence (.InSequence ⟨[.Log ⟨"custom", [⟨"/validate", "inSequence"⟩]⟩]⟩)]⟩)
      = .ok ⟨[.Sequence (.InSequence ⟨[.Log ⟨"custom", [⟨"/validate", "inSequence"⟩]⟩]⟩)]⟩ :=
  c2_amended ⟨[.Sequence (.InSequence ⟨[.Log ⟨"custom", [⟨"/validate", "inSequence"⟩]⟩]⟩)]⟩ rfl

end SynapseParser
